import Mathlib

/-!
Shallow embedding of the EventHubConnect storage layer
(src/server/storage.ts, schema in src/shared/schema.ts, HTTP handlers in
src/server/routes.ts) and proofs about the registration / attendance /
certificate state machine.

Modelling conventions:
* each Postgres table is a `List` of rows inside a `DB` record, together with
  a `next…Id` counter for its `serial` primary key (serial ids start at 1);
* `db.query.….findFirst {where}` is `List.find?`, `db.delete(…).where(p)` is
  `List.filter (fun r => !(p r))` with the `returning()` rows
  `List.filter p`, `db.update(…).set(f).where(p)` is a `List.map` that
  rewrites exactly the rows satisfying `p`, and `db.insert(…).returning()`
  appends a row carrying the fresh serial id;
* `new Date()` / `defaultNow()` timestamps are modelled by an explicit
  `t : Nat` parameter on every operation that writes a timestamp;
* table columns never read by any modelled operation (dates, venue, status,
  descriptions, password hashes, …) are elided from the row structures;
* thrown `Error`s become values of explicit error inductives; each operation
  returns its result together with the data-base state after the call, so
  error paths (which in the source throw before any write) return the input
  state unchanged.
-/

namespace EventHub

/-- Row of the users table (src/shared/schema.ts lines 12-23); only the
columns the modelled operations read are kept. -/
structure User where
  id : Nat
  name : String
  deriving Repr, DecidableEq

/-- Row of the events table (src/shared/schema.ts lines 42-56). -/
structure Event where
  id : Nat
  title : String
  capacity : Nat
  createdById : Nat
  deriving Repr, DecidableEq

/-- Row of the topics table (src/shared/schema.ts lines 77-83). -/
structure Topic where
  id : Nat
  eventId : Nat
  title : String
  deriving Repr, DecidableEq

/-- Row of the event_speakers join table (src/shared/schema.ts lines
101-106). -/
structure SpeakerAssignment where
  id : Nat
  topicId : Nat
  speakerId : Nat
  deriving Repr, DecidableEq

/-- Row of the event_registrations table (src/shared/schema.ts lines
120-129). -/
structure Registration where
  id : Nat
  eventId : Nat
  userId : Nat
  attended : Bool
  attendanceTime : Option Nat
  certificateGenerated : Bool
  certificateUrl : Option String
  deriving Repr, DecidableEq

/-- Row of the certificates table (src/shared/schema.ts lines 143-149). -/
structure Certificate where
  id : Nat
  registrationId : Nat
  certificateUrl : String
  speakerSignature : Option String
  issuedAt : Nat
  deriving Repr, DecidableEq

/-- Row of the activity_logs table (src/shared/schema.ts lines 159-165). -/
structure ActivityLogEntry where
  id : Nat
  userId : Nat
  action : String
  description : String
  timestamp : Nat
  deriving Repr, DecidableEq

/-- The relational state acted on by `DatabaseStorage`
(src/server/storage.ts): one list per table plus the serial counters. -/
structure DB where
  users : List User
  events : List Event
  topics : List Topic
  eventSpeakers : List SpeakerAssignment
  registrations : List Registration
  certificates : List Certificate
  activityLogs : List ActivityLogEntry
  nextUserId : Nat
  nextEventId : Nat
  nextTopicId : Nat
  nextAssignmentId : Nat
  nextRegistrationId : Nat
  nextCertificateId : Nat
  nextLogId : Nat
  deriving Repr, DecidableEq

/-- The empty data base: every table empty, every serial counter at 1. -/
def dbInit : DB :=
  { users := [], events := [], topics := [], eventSpeakers := []
    registrations := [], certificates := [], activityLogs := []
    nextUserId := 1, nextEventId := 1, nextTopicId := 1, nextAssignmentId := 1
    nextRegistrationId := 1, nextCertificateId := 1, nextLogId := 1 }

/-- `DatabaseStorage.logActivity` (src/server/storage.ts lines 577-585):
inserts one activity_logs row and returns it. -/
def logActivity (userId : Nat) (action description : String) (t : Nat)
    (db : DB) : ActivityLogEntry × DB :=
  let entry : ActivityLogEntry :=
    { id := db.nextLogId, userId := userId, action := action
      description := description, timestamp := t }
  (entry, { db with activityLogs := db.activityLogs ++ [entry]
                    nextLogId := db.nextLogId + 1 })

/-- `DatabaseStorage.getEventRegistrations` (src/server/storage.ts lines
437-444): all event_registrations rows whose eventId matches (the joined
user object is display-only and elided). -/
def getEventRegistrations (eventId : Nat) (db : DB) : List Registration :=
  db.registrations.filter (fun r => r.eventId == eventId)

/-- The three `Error`s thrown by `registerForEvent`
(src/server/storage.ts lines 377-394). -/
inductive RegisterError where
  | duplicateRegistration
  | eventNotFound
  | capacityExceeded
  deriving Repr, DecidableEq

/-- `DatabaseStorage.registerForEvent` (src/server/storage.ts lines
368-409): duplicate check, event lookup, capacity check, then insert and
one audit entry. -/
def registerForEvent (userId eventId t : Nat) (db : DB) :
    Except RegisterError Registration × DB :=
  match db.registrations.find?
      (fun r => r.userId == userId && r.eventId == eventId) with
  | some _ => (.error .duplicateRegistration, db)
  | none =>
    match db.events.find? (fun e => e.id == eventId) with
    | none => (.error .eventNotFound, db)
    | some event =>
      if (getEventRegistrations eventId db).length ≥ event.capacity then
        (.error .capacityExceeded, db)
      else
        let reg : Registration :=
          { id := db.nextRegistrationId, eventId := eventId, userId := userId
            attended := false, attendanceTime := none
            certificateGenerated := false, certificateUrl := none }
        let db1 := { db with registrations := db.registrations ++ [reg]
                             nextRegistrationId := db.nextRegistrationId + 1 }
        let db2 := (logActivity userId "register_event"
          ("Registered for event \"" ++ event.title ++ "\"") t db1).2
        (.ok reg, db2)

/-- `DatabaseStorage.cancelRegistration` (src/server/storage.ts lines
411-435): unconditionally deletes every event_registrations row of the
(user, event) pair; logs only when at least one row was deleted and the
event still exists.  The DELETE /events/:id/register handler
(src/server/routes.ts lines 503-517) calls this directly with no further
check. -/
def cancelRegistration (userId eventId t : Nat) (db : DB) : Bool × DB :=
  let deleted := db.registrations.filter
    (fun r => r.userId == userId && r.eventId == eventId)
  let remaining := db.registrations.filter
    (fun r => !(r.userId == userId && r.eventId == eventId))
  let db1 := { db with registrations := remaining }
  if deleted.length > 0 then
    match db1.events.find? (fun e => e.id == eventId) with
    | some event =>
      (true, (logActivity userId "cancel_registration"
        ("Cancelled registration for event \"" ++ event.title ++ "\"")
        t db1).2)
    | none => (true, db1)
  else
    (false, db1)

/-- `DatabaseStorage.markAttendance` (src/server/storage.ts lines 456-485):
updates the row with the given id to attended=true with a fresh timestamp;
when a row was updated it re-fetches the row joined with user and event and
logs only when both exist; returns whether a row was updated. -/
def markAttendance (registrationId t : Nat) (db : DB) : Bool × DB :=
  let matched := db.registrations.filter (fun r => r.id == registrationId)
  let updatedRows := db.registrations.map
    (fun r => if r.id == registrationId then
        { r with attended := true, attendanceTime := some t }
      else r)
  let db1 := { db with registrations := updatedRows }
  if matched.length > 0 then
    match db1.registrations.find? (fun r => r.id == registrationId) with
    | some reg =>
      match db1.users.find? (fun u => u.id == reg.userId),
            db1.events.find? (fun e => e.id == reg.eventId) with
      | some user, some event =>
        (true, (logActivity user.id "mark_attendance"
          ("Marked attendance for \"" ++ event.title ++ "\"") t db1).2)
      | _, _ => (true, db1)
    | none => (true, db1)
  else
    (false, db1)

/-- The three `Error`s thrown by `generateCertificate`
(src/server/storage.ts lines 498-508). -/
inductive CertificateError where
  | registrationNotFound
  | attendanceRequired
  | certificateAlreadyIssued
  deriving Repr, DecidableEq

/-- `DatabaseStorage.generateCertificate` (src/server/storage.ts lines
488-539): after the three guards it stamps the registration row, inserts a
certificates row, and logs when the joined user and event exist.  All three
error paths throw before any write. -/
def generateCertificate (registrationId : Nat)
    (speakerSignature : Option String) (t : Nat) (db : DB) :
    Except CertificateError Certificate × DB :=
  match db.registrations.find? (fun r => r.id == registrationId) with
  | none => (.error .registrationNotFound, db)
  | some reg =>
    if !reg.attended then
      (.error .attendanceRequired, db)
    else if reg.certificateGenerated then
      (.error .certificateAlreadyIssued, db)
    else
      let certificateUrl := "/certificates/" ++ toString reg.id
      let stamped := db.registrations.map
        (fun r => if r.id == registrationId then
            { r with certificateGenerated := true
                     certificateUrl := some certificateUrl }
          else r)
      let db1 := { db with registrations := stamped }
      let cert : Certificate :=
        { id := db1.nextCertificateId, registrationId := registrationId
          certificateUrl := certificateUrl
          speakerSignature := speakerSignature, issuedAt := t }
      let db2 := { db1 with certificates := db1.certificates ++ [cert]
                            nextCertificateId := db1.nextCertificateId + 1 }
      let db3 :=
        match db2.users.find? (fun u => u.id == reg.userId),
              db2.events.find? (fun e => e.id == reg.eventId) with
        | some user, some event =>
          (logActivity user.id "generate_certificate"
            ("Generated certificate for \"" ++ event.title ++ "\"") t db2).2
        | _, _ => db2
      (.ok cert, db3)

/-- `DatabaseStorage.deleteEvent` (src/server/storage.ts lines 267-293):
deletes speaker assignments of the event's topics, the topics, the
certificates of the event's registrations, the registrations, and finally
the event; returns whether an event row was deleted.  It writes no
activity_logs row. -/
def deleteEvent (id : Nat) (db : DB) : Bool × DB :=
  let eventTopics := db.topics.filter (fun tp => tp.eventId == id)
  let keptAssignments := db.eventSpeakers.filter
    (fun s => !(eventTopics.any (fun tp => tp.id == s.topicId)))
  let db1 := { db with eventSpeakers := keptAssignments }
  let keptTopics := db1.topics.filter (fun tp => !(tp.eventId == id))
  let db2 := { db1 with topics := keptTopics }
  let regs := db2.registrations.filter (fun r => r.eventId == id)
  let keptCertificates := db2.certificates.filter
    (fun c => !(regs.any (fun r => r.id == c.registrationId)))
  let db3 := { db2 with certificates := keptCertificates }
  let keptRegistrations := db3.registrations.filter
    (fun r => !(r.eventId == id))
  let db4 := { db3 with registrations := keptRegistrations }
  let deletedEvents := db4.events.filter (fun e => e.id == id)
  let keptEvents := db4.events.filter (fun e => !(e.id == id))
  let db5 := { db4 with events := keptEvents }
  (deletedEvents.length > 0, db5)

/-- `DatabaseStorage.createTopic` (src/server/storage.ts lines 296-299). -/
def createTopic (eventId : Nat) (title : String) (db : DB) : Topic × DB :=
  let topic : Topic := { id := db.nextTopicId, eventId := eventId
                         title := title }
  (topic, { db with topics := db.topics ++ [topic]
                    nextTopicId := db.nextTopicId + 1 })

/-- `DatabaseStorage.assignSpeakerToTopic` (src/server/storage.ts lines
358-365). -/
def assignSpeakerToTopic (speakerId topicId : Nat) (db : DB) :
    SpeakerAssignment × DB :=
  let a : SpeakerAssignment := { id := db.nextAssignmentId
                                 topicId := topicId, speakerId := speakerId }
  (a, { db with eventSpeakers := db.eventSpeakers ++ [a]
                nextAssignmentId := db.nextAssignmentId + 1 })

/-- One topic of a `createEvent` payload; the source's string speaker id
parsing ("", "none" and non-numeric strings) is collapsed to `none`. -/
structure TopicInput where
  title : String
  speakerId : Option Nat
  deriving Repr, DecidableEq

/-- Payload of `createEvent`; the source's `userId || createdById`
truthiness fallback is collapsed to the single `createdById` field. -/
structure EventInput where
  title : String
  capacity : Nat
  createdById : Nat
  topics : List TopicInput
  deriving Repr, DecidableEq

/-- One iteration of the topics loop of `createEvent`
(src/server/storage.ts lines 136-156): create the topic, then assign the
speaker when one was given. -/
def createEventTopicStep (eventId : Nat) (acc : DB) (ti : TopicInput) : DB :=
  let created := createTopic eventId ti.title acc
  match ti.speakerId with
  | some sid => (assignSpeakerToTopic sid created.1.id created.2).2
  | none => created.2

/-- `DatabaseStorage.createEvent` (src/server/storage.ts lines 126-166):
inserts the event, creates its topics (assigning speakers when given), and
logs one create_event entry. -/
def createEvent (input : EventInput) (t : Nat) (db : DB) : Event × DB :=
  let event : Event := { id := db.nextEventId, title := input.title
                         capacity := input.capacity
                         createdById := input.createdById }
  let db1 := { db with events := db.events ++ [event]
                       nextEventId := db.nextEventId + 1 }
  let db2 := input.topics.foldl (createEventTopicStep event.id) db1
  let db3 := (logActivity input.createdById "create_event"
    ("Created new event \"" ++ input.title ++ "\"") t db2).2
  (event, db3)

/-- Partial update payload of `updateEvent` (only the columns the model
keeps). -/
structure EventUpdate where
  title : Option String
  capacity : Option Nat
  deriving Repr, DecidableEq

/-- `DatabaseStorage.updateEvent` (src/server/storage.ts lines 243-265):
rewrites the matching events row, throws when none matched, otherwise logs
one update_event entry. -/
def updateEvent (id : Nat) (upd : EventUpdate) (userId t : Nat) (db : DB) :
    Except Unit Event × DB :=
  let updatedEvents := db.events.map
    (fun e => if e.id == id then
        { e with title := upd.title.getD e.title
                 capacity := upd.capacity.getD e.capacity }
      else e)
  let db1 := { db with events := updatedEvents }
  match db1.events.find? (fun e => e.id == id) with
  | none => (.error (), db1)
  | some updatedEvent =>
    (.ok updatedEvent, (logActivity userId "update_event"
      ("Updated event \"" ++ updatedEvent.title ++ "\"") t db1).2)

/-- `DatabaseStorage.createUser` (src/server/storage.ts lines 81-85),
keeping only the modelled columns. -/
def createUser (name : String) (db : DB) : User × DB :=
  let user : User := { id := db.nextUserId, name := name }
  (user, { db with users := db.users ++ [user]
                   nextUserId := db.nextUserId + 1 })

/-- `DatabaseStorage.updateUser` (src/server/storage.ts lines 111-123):
rewrites the matching users row, throws when none matched. -/
def updateUser (id : Nat) (name : Option String) (db : DB) :
    Except Unit User × DB :=
  let updatedUsers := db.users.map
    (fun u => if u.id == id then { u with name := name.getD u.name } else u)
  let db1 := { db with users := updatedUsers }
  match db1.users.find? (fun u => u.id == id) with
  | some u => (.ok u, db1)
  | none => (.error (), db1)

/-- The registration lookup of the GET /certificates/download/:id handler
(src/server/routes.ts lines 616-629): it searches the result of
`getEventRegistrations(0)` — the code comment calls this a
"Dummy call to get all registrations" — for the requested id. -/
def downloadCertificateLookup (registrationId : Nat) (db : DB) :
    Option Registration :=
  (getEventRegistrations 0 db).find? (fun r => r.id == registrationId)

/-- One state-mutating call of the `IStorage` interface
(src/server/storage.ts lines 20-67); read-only queries do not change the
state and are omitted. -/
inductive Op where
  | createUser (name : String)
  | updateUser (id : Nat) (name : Option String)
  | createEvent (input : EventInput) (t : Nat)
  | updateEvent (id : Nat) (upd : EventUpdate) (userId t : Nat)
  | deleteEvent (id : Nat)
  | createTopic (eventId : Nat) (title : String)
  | assignSpeakerToTopic (speakerId topicId : Nat)
  | registerForEvent (userId eventId t : Nat)
  | cancelRegistration (userId eventId t : Nat)
  | markAttendance (registrationId t : Nat)
  | generateCertificate (registrationId : Nat) (sig : Option String) (t : Nat)
  | logActivity (userId : Nat) (action description : String) (t : Nat)
  deriving Repr, DecidableEq

/-- The state after one storage call. -/
def applyOp (op : Op) (db : DB) : DB :=
  match op with
  | .createUser name => (createUser name db).2
  | .updateUser id name => (updateUser id name db).2
  | .createEvent input t => (createEvent input t db).2
  | .updateEvent id upd userId t => (updateEvent id upd userId t db).2
  | .deleteEvent id => (deleteEvent id db).2
  | .createTopic eventId title => (createTopic eventId title db).2
  | .assignSpeakerToTopic speakerId topicId =>
      (assignSpeakerToTopic speakerId topicId db).2
  | .registerForEvent userId eventId t =>
      (registerForEvent userId eventId t db).2
  | .cancelRegistration userId eventId t =>
      (cancelRegistration userId eventId t db).2
  | .markAttendance registrationId t => (markAttendance registrationId t db).2
  | .generateCertificate registrationId sig t =>
      (generateCertificate registrationId sig t db).2
  | .logActivity userId action description t =>
      (logActivity userId action description t db).2

/-- Sequential execution of a list of storage calls. -/
def run (ops : List Op) (db : DB) : DB :=
  ops.foldl (fun s op => applyOp op s) db

/-- A small reachable state: users alice (id 1) and bob (id 2) plus one
event (id 1) with capacity 1, built by running three storage calls from the
empty data base. -/
def dbBase : DB :=
  run [Op.createUser "alice", Op.createUser "bob",
    Op.createEvent { title := "E", capacity := 1, createdById := 1
                     topics := [] } 0] dbInit

/-- `dbBase` after user 1 registered for event 1 (registration id 1). -/
def dbRegistered : DB := run [Op.registerForEvent 1 1 1] dbBase

/-- `dbRegistered` after attendance was marked on registration 1. -/
def dbAttended : DB := run [Op.markAttendance 1 2] dbRegistered

/-- `dbAttended` after a certificate was generated for registration 1. -/
def dbCert : DB := run [Op.generateCertificate 1 none 3] dbAttended

/-! ### Frame facts about single operations -/

/-- `logActivity` only touches the activity_logs table and its counter. -/
theorem logActivity_frame (u : Nat) (a d : String) (t : Nat) (db : DB) :
    (logActivity u a d t db).2 =
      { db with activityLogs := db.activityLogs ++
                  [⟨db.nextLogId, u, a, d, t⟩]
                nextLogId := db.nextLogId + 1 } := rfl

/-- The registration rows after `cancelRegistration`: exactly the rows of
other (user, event) pairs, whatever the logging branch taken. -/
theorem cancelRegistration_snd_registrations (u e t : Nat) (db : DB) :
    (cancelRegistration u e t db).2.registrations =
      db.registrations.filter
        (fun r => !(r.userId == u && r.eventId == e)) := by
  unfold cancelRegistration
  dsimp only
  split
  · split <;> rfl
  · rfl

/-- `cancelRegistration` returns true as soon as a row of the pair
exists. -/
theorem cancelRegistration_fst_true (u e t : Nat) (db : DB)
    (h : 0 < (db.registrations.filter
      (fun r => r.userId == u && r.eventId == e)).length) :
    (cancelRegistration u e t db).1 = true := by
  unfold cancelRegistration
  dsimp only
  rw [if_pos h]
  split <;> rfl

/-- Everything except registration rows is untouched by the deleting part
of `cancelRegistration`; only the log tables can additionally change. -/
theorem cancelRegistration_snd_events (u e t : Nat) (db : DB) :
    (cancelRegistration u e t db).2.events = db.events := by
  unfold cancelRegistration
  dsimp only
  split
  · split <;> rfl
  · rfl

/-- The registration rows after `markAttendance`: the matching row is
stamped, all other rows survive unchanged, whatever the logging branch. -/
theorem markAttendance_snd_registrations (rid t : Nat) (db : DB) :
    (markAttendance rid t db).2.registrations =
      db.registrations.map (fun r => if r.id == rid then
        { r with attended := true, attendanceTime := some t } else r) := by
  unfold markAttendance
  dsimp only
  split
  · split
    · split <;> rfl
    · rfl
  · rfl

/-- The row inserted by a successful `registerForEvent`. -/
def freshRegistration (db : DB) (userId eventId : Nat) : Registration :=
  { id := db.nextRegistrationId, eventId := eventId, userId := userId
    attended := false, attendanceTime := none
    certificateGenerated := false, certificateUrl := none }

/-- Full characterisation of a successful `registerForEvent` call: the pair
had no row, the event exists and has free capacity, so one registration row
and one audit row are appended. -/
theorem registerForEvent_success_eq (db : DB) (u e t : Nat) (ev : Event)
    (hdup : db.registrations.find?
      (fun r => r.userId == u && r.eventId == e) = none)
    (hev : db.events.find? (fun x => x.id == e) = some ev)
    (hcap : (getEventRegistrations e db).length < ev.capacity) :
    registerForEvent u e t db =
      (.ok (freshRegistration db u e),
        { db with
            registrations := db.registrations ++ [freshRegistration db u e]
            nextRegistrationId := db.nextRegistrationId + 1
            activityLogs := db.activityLogs ++
              [⟨db.nextLogId, u, "register_event",
                "Registered for event \"" ++ ev.title ++ "\"", t⟩]
            nextLogId := db.nextLogId + 1 }) := by
  unfold registerForEvent
  rw [hdup, hev]
  dsimp only
  rw [if_neg (by omega)]
  rfl

/-- A guarded update hitting no row is the identity. -/
theorem map_ite_eq_self {α : Type} (p : α → Bool) (f : α → α) (l : List α)
    (h : ∀ a ∈ l, p a = false) :
    l.map (fun a => if p a then f a else a) = l := by
  induction l with
  | nil => rfl
  | cons a l ih =>
    have ha := h a (List.mem_cons_self a l)
    simp only [List.map_cons, ha, Bool.false_eq_true, if_false]
    rw [ih (fun x hx => h x (List.mem_cons_of_mem a hx))]

/-- `markAttendance` on an absent registration id: returns false and the
whole state is unchanged. -/
theorem markAttendance_none_eq (rid t : Nat) (db : DB)
    (h : ∀ r ∈ db.registrations, ¬(r.id = rid)) :
    markAttendance rid t db = (false, db) := by
  have hfilter : db.registrations.filter (fun r => r.id == rid) = [] := by
    rw [List.filter_eq_nil_iff]
    intro a ha
    simp [h a ha]
  have hmap := map_ite_eq_self (fun r => r.id == rid)
    (fun r => { r with attended := true, attendanceTime := some t })
    db.registrations (fun a ha => by simp [h a ha])
  unfold markAttendance
  dsimp only
  rw [hfilter, hmap]
  rfl

/-- `markAttendance` returns true as soon as a row with the id exists. -/
theorem markAttendance_fst_true (rid t : Nat) (db : DB)
    (h : 0 < (db.registrations.filter (fun r => r.id == rid)).length) :
    (markAttendance rid t db).1 = true := by
  unfold markAttendance
  dsimp only
  rw [if_pos h]
  split
  · split <;> rfl
  · rfl

/-- C7: `markAttendance` returns false and leaves the state — in
particular the audit log — unchanged when no registration has the given
id; when one exists it returns true and stamps the matching row with
attended=true and the given current time, overwriting any previous
timestamp. -/
theorem markAttendance_spec (db : DB) (rid t : Nat) :
    ((∀ r ∈ db.registrations, ¬(r.id = rid)) →
      markAttendance rid t db = (false, db)) ∧
    ((∃ r ∈ db.registrations, r.id = rid) →
      (markAttendance rid t db).1 = true ∧
      ∀ r ∈ (markAttendance rid t db).2.registrations, r.id = rid →
        r.attended = true ∧ r.attendanceTime = some t) := by
  constructor
  · exact markAttendance_none_eq rid t db
  · rintro ⟨r, hr, hid⟩
    constructor
    · apply markAttendance_fst_true
      have hmem : r ∈ db.registrations.filter (fun x => x.id == rid) := by
        simp [List.mem_filter, hr, hid]
      exact List.length_pos.mpr (List.ne_nil_of_mem hmem)
    · intro x hx hxid
      rw [markAttendance_snd_registrations] at hx
      obtain ⟨a, ha, hax⟩ := List.mem_map.mp hx
      by_cases hc : a.id = rid
      · rw [← hax]
        simp [hc]
      · rw [← hax] at hxid
        simp [hc] at hxid

/-- Witness for `markAttendance_spec` at a reachable state whose
registration 1 is already attended with timestamp 2: re-marking at time 9
succeeds and overwrites the timestamp. -/
theorem markAttendance_spec_witness :
    (∃ r ∈ dbAttended.registrations, r.id = 1) ∧
    ((markAttendance 1 9 dbAttended).1 = true ∧
      ∀ r ∈ (markAttendance 1 9 dbAttended).2.registrations, r.id = 1 →
        r.attended = true ∧ r.attendanceTime = some 9) :=
  ⟨by decide, (markAttendance_spec dbAttended 1 9).2 (by decide)⟩

/-- C10: every failing `generateCertificate` call — registration absent,
attendance missing, or certificate already issued — leaves the whole state
unchanged: no registration update, no certificate row, no audit row. -/
theorem generateCertificate_error_frame (db : DB) (rid : Nat)
    (sig : Option String) (t : Nat) (err : CertificateError)
    (h : (generateCertificate rid sig t db).1 = .error err) :
    (generateCertificate rid sig t db).2 = db := by
  unfold generateCertificate at h ⊢
  cases hf : db.registrations.find? (fun r => r.id == rid) with
  | none => rfl
  | some reg =>
    rw [hf] at h
    by_cases ha : reg.attended
    · by_cases hc : reg.certificateGenerated
      · simp [ha, hc]
      · exfalso
        simp [ha, hc] at h
    · simp [ha]

/-- Witness for `generateCertificate_error_frame`: a second call on the
already-issued registration of `dbCert` fails and changes nothing. -/
theorem generateCertificate_error_frame_witness :
    (generateCertificate 1 none 9 dbCert).1 =
      .error .certificateAlreadyIssued ∧
    (generateCertificate 1 none 9 dbCert).2 = dbCert :=
  ⟨rfl,
    generateCertificate_error_frame dbCert 1 none 9
      CertificateError.certificateAlreadyIssued rfl⟩

/-- No row of the (user, event) pair means the duplicate lookup of
`registerForEvent` comes back empty. -/
theorem find?_pair_eq_none (db : DB) (u e : Nat)
    (hdup : ∀ r ∈ db.registrations, ¬(r.userId = u ∧ r.eventId = e)) :
    db.registrations.find?
      (fun r => r.userId == u && r.eventId == e) = none := by
  rw [List.find?_eq_none]
  intro x hx
  simp only [Bool.and_eq_true, beq_iff_eq]
  exact hdup x hx

/-- Deleting the rows of a pair that has no row is the identity. -/
theorem filter_not_pair_eq_self (db : DB) (u e : Nat)
    (hd : db.registrations.find?
      (fun r => r.userId == u && r.eventId == e) = none) :
    db.registrations.filter
      (fun r => !(r.userId == u && r.eventId == e)) = db.registrations := by
  apply List.filter_eq_self.mpr
  intro a ha
  have h2 : (a.userId == u && a.eventId == e) = false :=
    Bool.eq_false_iff.mpr (List.find?_eq_none.mp hd a ha)
  rw [h2]
  rfl

/-- C2: `registerForEvent` fails with duplicate-registration when the pair
already has a row; with event-not-found when no such row exists and the
event is missing; with capacity-exceeded when the registration count has
reached the capacity; and on success appends exactly one registration row
for the pair and exactly one audit entry. -/
theorem registerForEvent_spec (db : DB) (u e t : Nat) :
    ((∃ r ∈ db.registrations, r.userId = u ∧ r.eventId = e) →
      registerForEvent u e t db = (.error .duplicateRegistration, db)) ∧
    ((∀ r ∈ db.registrations, ¬(r.userId = u ∧ r.eventId = e)) →
      (∀ ev ∈ db.events, ¬(ev.id = e)) →
      registerForEvent u e t db = (.error .eventNotFound, db)) ∧
    (∀ ev, (∀ r ∈ db.registrations, ¬(r.userId = u ∧ r.eventId = e)) →
      db.events.find? (fun x => x.id == e) = some ev →
      ev.capacity ≤ (getEventRegistrations e db).length →
      registerForEvent u e t db = (.error .capacityExceeded, db)) ∧
    (∀ ev, (∀ r ∈ db.registrations, ¬(r.userId = u ∧ r.eventId = e)) →
      db.events.find? (fun x => x.id == e) = some ev →
      (getEventRegistrations e db).length < ev.capacity →
      ∃ reg entry,
        (registerForEvent u e t db).1 = .ok reg ∧
        reg.userId = u ∧ reg.eventId = e ∧
        (registerForEvent u e t db).2.registrations =
          db.registrations ++ [reg] ∧
        (registerForEvent u e t db).2.activityLogs =
          db.activityLogs ++ [entry]) := by
  refine ⟨?_, ?_, ?_, ?_⟩
  · rintro ⟨r, hr, hu, he⟩
    have hne : db.registrations.find?
        (fun x => x.userId == u && x.eventId == e) ≠ none := by
      intro hnone
      exact List.find?_eq_none.mp hnone r hr (by simp [hu, he])
    cases hf : db.registrations.find?
        (fun x => x.userId == u && x.eventId == e) with
    | none => exact absurd hf hne
    | some r0 =>
      unfold registerForEvent
      rw [hf]
  · intro hdup hev
    have hd := find?_pair_eq_none db u e hdup
    have he : db.events.find? (fun x => x.id == e) = none := by
      rw [List.find?_eq_none]
      intro x hx
      simp only [beq_iff_eq]
      exact hev x hx
    unfold registerForEvent
    rw [hd, he]
  · intro ev hdup hfind hcap
    have hd := find?_pair_eq_none db u e hdup
    unfold registerForEvent
    rw [hd, hfind]
    dsimp only
    rw [if_pos hcap]
  · intro ev hdup hfind hcap
    have hd := find?_pair_eq_none db u e hdup
    rw [registerForEvent_success_eq db u e t ev hd hfind hcap]
    exact ⟨freshRegistration db u e,
      ⟨db.nextLogId, u, "register_event",
        "Registered for event \"" ++ ev.title ++ "\"", t⟩,
      rfl, rfl, rfl, rfl, rfl⟩

/-- Witness for `registerForEvent_spec`: a successful registration against
the reachable state `dbBase` (event 1, capacity 1, no registrations). -/
theorem registerForEvent_spec_witness :
    ∃ reg entry,
      (registerForEvent 1 1 1 dbBase).1 = .ok reg ∧
      reg.userId = 1 ∧ reg.eventId = 1 ∧
      (registerForEvent 1 1 1 dbBase).2.registrations =
        dbBase.registrations ++ [reg] ∧
      (registerForEvent 1 1 1 dbBase).2.activityLogs =
        dbBase.activityLogs ++ [entry] :=
  (registerForEvent_spec dbBase 1 1 1).2.2.2
    { id := 1, title := "E", capacity := 1, createdById := 1 }
    (by decide) (by decide) (by decide)

/-- C5: from a state where the pair has no registration row and the event
has free capacity, `registerForEvent` followed by `cancelRegistration`
restores the registration table exactly: the cancellation reports success
and the row list equals the one before the register call. -/
theorem register_then_cancel (db : DB) (u e t1 t2 : Nat) (ev : Event)
    (hdup : ∀ r ∈ db.registrations, ¬(r.userId = u ∧ r.eventId = e))
    (hev : db.events.find? (fun x => x.id == e) = some ev)
    (hcap : (getEventRegistrations e db).length < ev.capacity) :
    (cancelRegistration u e t2 (registerForEvent u e t1 db).2).1 = true ∧
    (cancelRegistration u e t2
      (registerForEvent u e t1 db).2).2.registrations = db.registrations := by
  have hd := find?_pair_eq_none db u e hdup
  rw [registerForEvent_success_eq db u e t1 ev hd hev hcap]
  constructor
  · apply cancelRegistration_fst_true
    rw [List.filter_append]
    simp [freshRegistration]
  · rw [cancelRegistration_snd_registrations]
    rw [List.filter_append, filter_not_pair_eq_self db u e hd]
    simp [freshRegistration]

/-- Witness for `register_then_cancel` at the reachable state `dbBase`. -/
theorem register_then_cancel_witness :
    (cancelRegistration 1 1 2 (registerForEvent 1 1 1 dbBase).2).1 = true ∧
    (cancelRegistration 1 1 2
      (registerForEvent 1 1 1 dbBase).2).2.registrations =
      dbBase.registrations :=
  register_then_cancel dbBase 1 1 1 2
    { id := 1, title := "E", capacity := 1, createdById := 1 }
    (by decide) (by decide) (by decide)

/-- Result and table contents of a successful `generateCertificate`
call. -/
theorem generateCertificate_success_parts (db : DB) (rid : Nat)
    (sig : Option String) (t : Nat) (reg : Registration)
    (hf : db.registrations.find? (fun r => r.id == rid) = some reg)
    (ha : reg.attended = true) (hc : reg.certificateGenerated = false) :
    (generateCertificate rid sig t db).1 = .ok
      ⟨db.nextCertificateId, rid, "/certificates/" ++ toString reg.id,
        sig, t⟩ ∧
    (generateCertificate rid sig t db).2.certificates =
      db.certificates ++
        [⟨db.nextCertificateId, rid, "/certificates/" ++ toString reg.id,
          sig, t⟩] ∧
    (generateCertificate rid sig t db).2.registrations =
      db.registrations.map (fun r => if r.id == rid then
        { r with certificateGenerated := true
                 certificateUrl :=
                   some ("/certificates/" ++ toString reg.id) }
        else r) := by
  unfold generateCertificate
  rw [hf]
  simp only [ha, hc, Bool.not_true, Bool.false_eq_true, if_false, if_true]
  refine ⟨?_, ?_, ?_⟩ <;> first
  | trivial
  | (split <;> rfl)

/-- A successful `generateCertificate` appends exactly one audit row when
the registration's user and event rows exist (guaranteed by the schema's
foreign keys). -/
theorem generateCertificate_success_logs (db : DB) (rid : Nat)
    (sig : Option String) (t : Nat) (reg : Registration)
    (hf : db.registrations.find? (fun r => r.id == rid) = some reg)
    (ha : reg.attended = true) (hc : reg.certificateGenerated = false)
    (hu : ∃ usr ∈ db.users, usr.id = reg.userId)
    (he : ∃ ev ∈ db.events, ev.id = reg.eventId) :
    ∃ entry, (generateCertificate rid sig t db).2.activityLogs =
      db.activityLogs ++ [entry] := by
  obtain ⟨usr, husr, huid⟩ := hu
  obtain ⟨ev, hevm, hevid⟩ := he
  have h1 : db.users.find? (fun x => x.id == reg.userId) ≠ none := by
    intro hnone
    exact List.find?_eq_none.mp hnone usr husr (by simp [huid])
  have h2 : db.events.find? (fun x => x.id == reg.eventId) ≠ none := by
    intro hnone
    exact List.find?_eq_none.mp hnone ev hevm (by simp [hevid])
  cases hf1 : db.users.find? (fun x => x.id == reg.userId) with
  | none => exact absurd hf1 h1
  | some usr0 =>
    cases hf2 : db.events.find? (fun x => x.id == reg.eventId) with
    | none => exact absurd hf2 h2
    | some ev0 =>
      unfold generateCertificate
      rw [hf]
      simp only [ha, hc, Bool.not_true, Bool.false_eq_true, if_false,
        if_true]
      try dsimp only
      rw [hf1, hf2]
      exact ⟨_, rfl⟩

/-- After a successful `generateCertificate`, a second call on the same
registration fails with certificate-already-issued. -/
theorem generateCertificate_second_call (db : DB) (rid : Nat)
    (sig sig2 : Option String) (t t2 : Nat) (reg : Registration)
    (hf : db.registrations.find? (fun r => r.id == rid) = some reg)
    (ha : reg.attended = true) (hc : reg.certificateGenerated = false) :
    (generateCertificate rid sig2 t2
      (generateCertificate rid sig t db).2).1 =
      .error .certificateAlreadyIssued := by
  obtain ⟨-, -, hregs⟩ :=
    generateCertificate_success_parts db rid sig t reg hf ha hc
  have hid := List.find?_some hf
  have hpred : ((fun x : Registration => x.id == rid) ∘
      (fun r : Registration => if r.id == rid then
        { r with certificateGenerated := true
                 certificateUrl :=
                   some ("/certificates/" ++ toString reg.id) }
        else r)) = (fun x : Registration => x.id == rid) := by
    funext x
    by_cases h : (x.id == rid) = true
    · simp [Function.comp, h]
    · simp [Function.comp, h]
  have hfind2 : (generateCertificate rid sig t db).2.registrations.find?
      (fun r => r.id == rid) = some
      { reg with certificateGenerated := true
                 certificateUrl :=
                   some ("/certificates/" ++ toString reg.id) } := by
    rw [hregs, List.find?_map, hpred, hf, Option.map_some', if_pos hid]
  revert hfind2
  generalize (generateCertificate rid sig t db).2 = dbA
  intro hfind2
  unfold generateCertificate
  rw [hfind2]
  simp [ha]

/-- C6: `generateCertificate` fails with registration-not-found,
attendance-required, or certificate-already-issued according to the three
guards; on success it returns the inserted certificate carrying the given
registration id, stamps the registration row with certificateGenerated and
the certificate URL, appends one audit entry (given the foreign-key facts
that the registration's user and event exist), and a second call on the
same registration fails with certificate-already-issued. -/
theorem generateCertificate_spec (db : DB) (rid : Nat)
    (sig sig2 : Option String) (t t2 : Nat) :
    (db.registrations.find? (fun r => r.id == rid) = none →
      generateCertificate rid sig t db =
        (.error .registrationNotFound, db)) ∧
    (∀ reg, db.registrations.find? (fun r => r.id == rid) = some reg →
      reg.attended = false →
      generateCertificate rid sig t db =
        (.error .attendanceRequired, db)) ∧
    (∀ reg, db.registrations.find? (fun r => r.id == rid) = some reg →
      reg.attended = true → reg.certificateGenerated = true →
      generateCertificate rid sig t db =
        (.error .certificateAlreadyIssued, db)) ∧
    (∀ reg, db.registrations.find? (fun r => r.id == rid) = some reg →
      reg.attended = true → reg.certificateGenerated = false →
      ∃ cert,
        (generateCertificate rid sig t db).1 = .ok cert ∧
        cert.registrationId = rid ∧
        (generateCertificate rid sig t db).2.certificates =
          db.certificates ++ [cert] ∧
        (∀ r ∈ (generateCertificate rid sig t db).2.registrations,
          r.id = rid → r.certificateGenerated = true ∧
            r.certificateUrl =
              some ("/certificates/" ++ toString reg.id)) ∧
        ((∃ usr ∈ db.users, usr.id = reg.userId) →
          (∃ ev ∈ db.events, ev.id = reg.eventId) →
          ∃ entry, (generateCertificate rid sig t db).2.activityLogs =
            db.activityLogs ++ [entry]) ∧
        (generateCertificate rid sig2 t2
            (generateCertificate rid sig t db).2).1 =
          .error .certificateAlreadyIssued) := by
  refine ⟨?_, ?_, ?_, ?_⟩
  · intro hf
    unfold generateCertificate
    rw [hf]
  · intro reg hf ha
    unfold generateCertificate
    rw [hf]
    simp [ha]
  · intro reg hf ha hc
    unfold generateCertificate
    rw [hf]
    simp [ha, hc]
  · intro reg hf ha hc
    obtain ⟨h1, h2, h3⟩ :=
      generateCertificate_success_parts db rid sig t reg hf ha hc
    refine ⟨_, h1, rfl, h2, ?_, ?_, ?_⟩
    · intro r hr hrid
      rw [h3] at hr
      obtain ⟨a, hamem, hax⟩ := List.mem_map.mp hr
      by_cases hcase : a.id = rid
      · rw [← hax]
        simp [hcase]
      · rw [← hax] at hrid
        simp [hcase] at hrid
    · exact generateCertificate_success_logs db rid sig t reg hf ha hc
    · exact generateCertificate_second_call db rid sig sig2 t t2 reg hf ha hc

/-- Witness for `generateCertificate_spec`: the success branch at the
reachable state `dbAttended`. -/
theorem generateCertificate_spec_witness :
    ∃ cert,
      (generateCertificate 1 none 3 dbAttended).1 = .ok cert ∧
      cert.registrationId = 1 ∧
      (generateCertificate 1 none 3 dbAttended).2.certificates =
        dbAttended.certificates ++ [cert] ∧
      (∀ r ∈ (generateCertificate 1 none 3 dbAttended).2.registrations,
        r.id = 1 → r.certificateGenerated = true ∧
          r.certificateUrl = some ("/certificates/" ++ toString 1)) ∧
      ((∃ usr ∈ dbAttended.users, usr.id = 1) →
        (∃ ev ∈ dbAttended.events, ev.id = 1) →
        ∃ entry, (generateCertificate 1 none 3 dbAttended).2.activityLogs =
          dbAttended.activityLogs ++ [entry]) ∧
      (generateCertificate 1 none 9
          (generateCertificate 1 none 3 dbAttended).2).1 =
        .error .certificateAlreadyIssued :=
  (generateCertificate_spec dbAttended 1 none none 3 9).2.2.2
    ⟨1, 1, 1, true, some 2, false, none⟩ (by decide) (by decide) (by decide)

/-- C1 counterexample: in the reachable state `dbAttended` the pair
(user 1, event 1) is Attended, yet `cancelRegistration` deletes its
registration row and reports success, moving the pair back to
NotRegistered — the storage layer and the DELETE route never consult the
attended flag. -/
theorem cancelRegistration_deletes_attended_pair :
    (∃ r ∈ dbAttended.registrations,
      r.userId = 1 ∧ r.eventId = 1 ∧ r.attended = true) ∧
    (cancelRegistration 1 1 3 dbAttended).1 = true ∧
    (cancelRegistration 1 1 3 dbAttended).2.registrations = [] :=
  ⟨by decide, by decide, by decide⟩

/-- C1 (amended): cancellation is not disallowed once attended —
`cancelRegistration` reports success and deletes every registration row of
the (user, event) pair whenever one exists, whatever its attended flag,
returning the pair to NotRegistered. -/
theorem cancelRegistration_always_deletes (db : DB) (u e t : Nat)
    (h : ∃ r ∈ db.registrations, r.userId = u ∧ r.eventId = e) :
    (cancelRegistration u e t db).1 = true ∧
    ∀ r ∈ (cancelRegistration u e t db).2.registrations,
      ¬(r.userId = u ∧ r.eventId = e) := by
  obtain ⟨r, hr, hu, he⟩ := h
  constructor
  · apply cancelRegistration_fst_true
    have hmem : r ∈ db.registrations.filter
        (fun x => x.userId == u && x.eventId == e) := by
      simp [List.mem_filter, hr, hu, he]
    exact List.length_pos.mpr (List.ne_nil_of_mem hmem)
  · intro x hx hpair
    rw [cancelRegistration_snd_registrations] at hx
    have hp := List.of_mem_filter hx
    simp [hpair.1, hpair.2] at hp

/-- Witness for `cancelRegistration_always_deletes` at the reachable state
`dbRegistered`. -/
theorem cancelRegistration_always_deletes_witness :
    (∃ r ∈ dbRegistered.registrations, r.userId = 1 ∧ r.eventId = 1) ∧
    ((cancelRegistration 1 1 9 dbRegistered).1 = true ∧
      ∀ r ∈ (cancelRegistration 1 1 9 dbRegistered).2.registrations,
        ¬(r.userId = 1 ∧ r.eventId = 1)) :=
  ⟨by decide,
    cancelRegistration_always_deletes dbRegistered 1 1 9 (by decide)⟩

/-- C8: the certificate download lookup misses every real registration —
in the reachable state `dbCert` the registration with id 1 exists and its
certificate is issued, yet the lookup the handler performs over
`getEventRegistrations 0` returns none (no registration row ever has
eventId 0, serial event ids start at 1), so the endpoint reports not-found
for an existing registration. -/
theorem downloadLookup_misses_existing_registration :
    (∃ r ∈ dbCert.registrations,
      r.id = 1 ∧ r.certificateGenerated = true) ∧
    downloadCertificateLookup 1 dbCert = none :=
  ⟨by decide, by decide⟩

/-- The topics loop of `createEvent` only touches the topics and speaker
assignment tables and their counters. -/
theorem createEventTopicStep_frame (e : Nat) (acc : DB) (ti : TopicInput) :
    (createEventTopicStep e acc ti).users = acc.users ∧
    (createEventTopicStep e acc ti).events = acc.events ∧
    (createEventTopicStep e acc ti).registrations = acc.registrations ∧
    (createEventTopicStep e acc ti).certificates = acc.certificates ∧
    (createEventTopicStep e acc ti).activityLogs = acc.activityLogs ∧
    (createEventTopicStep e acc ti).nextEventId = acc.nextEventId ∧
    (createEventTopicStep e acc ti).nextRegistrationId =
      acc.nextRegistrationId ∧
    (createEventTopicStep e acc ti).nextLogId = acc.nextLogId := by
  obtain ⟨title, sp⟩ := ti
  unfold createEventTopicStep createTopic assignSpeakerToTopic
  cases sp <;> exact ⟨rfl, rfl, rfl, rfl, rfl, rfl, rfl, rfl⟩

/-- The whole topics loop of `createEvent` leaves the same tables and
counters untouched. -/
theorem createEventTopicsFold_frame (e : Nat) :
    ∀ (l : List TopicInput) (acc : DB),
    (l.foldl (createEventTopicStep e) acc).users = acc.users ∧
    (l.foldl (createEventTopicStep e) acc).events = acc.events ∧
    (l.foldl (createEventTopicStep e) acc).registrations =
      acc.registrations ∧
    (l.foldl (createEventTopicStep e) acc).certificates =
      acc.certificates ∧
    (l.foldl (createEventTopicStep e) acc).activityLogs =
      acc.activityLogs ∧
    (l.foldl (createEventTopicStep e) acc).nextEventId = acc.nextEventId ∧
    (l.foldl (createEventTopicStep e) acc).nextRegistrationId =
      acc.nextRegistrationId ∧
    (l.foldl (createEventTopicStep e) acc).nextLogId = acc.nextLogId := by
  intro l
  induction l with
  | nil =>
    intro acc
    exact ⟨rfl, rfl, rfl, rfl, rfl, rfl, rfl, rfl⟩
  | cons ti l ih =>
    intro acc
    obtain ⟨s1, s2, s3, s4, s5, s6, s7, s8⟩ :=
      createEventTopicStep_frame e acc ti
    obtain ⟨f1, f2, f3, f4, f5, f6, f7, f8⟩ := ih (createEventTopicStep e acc ti)
    simp only [List.foldl_cons]
    exact ⟨f1.trans s1, f2.trans s2, f3.trans s3, f4.trans s4, f5.trans s5,
      f6.trans s6, f7.trans s7, f8.trans s8⟩

/-- Every single storage call leaves the existing activity_logs rows in
place: the resulting log is the old log with rows appended at the end. -/
theorem applyOp_activityLogs (op : Op) (db : DB) :
    ∃ tail, (applyOp op db).activityLogs = db.activityLogs ++ tail := by
  cases op with
  | createUser name => exact ⟨[], by simp [applyOp, createUser]⟩
  | updateUser id name =>
    unfold applyOp updateUser
    dsimp only
    split <;> exact ⟨[], by simp⟩
  | createEvent input t =>
    unfold applyOp createEvent logActivity
    dsimp only
    rw [(createEventTopicsFold_frame db.nextEventId input.topics _).2.2.2.2.1]
    exact ⟨_, rfl⟩
  | updateEvent id upd userId t =>
    unfold applyOp updateEvent logActivity
    dsimp only
    split
    · exact ⟨[], by simp⟩
    · exact ⟨_, rfl⟩
  | deleteEvent id =>
    unfold applyOp deleteEvent
    exact ⟨[], by simp⟩
  | createTopic eventId title =>
    exact ⟨[], by simp [applyOp, createTopic]⟩
  | assignSpeakerToTopic speakerId topicId =>
    exact ⟨[], by simp [applyOp, assignSpeakerToTopic]⟩
  | registerForEvent u e t =>
    unfold applyOp registerForEvent logActivity
    dsimp only
    split
    · exact ⟨[], by simp⟩
    · split
      · exact ⟨[], by simp⟩
      · split
        · exact ⟨[], by simp⟩
        · exact ⟨_, rfl⟩
  | cancelRegistration u e t =>
    unfold applyOp cancelRegistration logActivity
    dsimp only
    split
    · split
      · exact ⟨_, rfl⟩
      · exact ⟨[], by simp⟩
    · exact ⟨[], by simp⟩
  | markAttendance rid t =>
    unfold applyOp markAttendance logActivity
    dsimp only
    split
    · split
      · split
        · exact ⟨_, rfl⟩
        · exact ⟨[], by simp⟩
      · exact ⟨[], by simp⟩
    · exact ⟨[], by simp⟩
  | generateCertificate rid sig t =>
    unfold applyOp generateCertificate logActivity
    dsimp only
    split
    · exact ⟨[], by simp⟩
    · split
      · exact ⟨[], by simp⟩
      · split
        · exact ⟨[], by simp⟩
        · split
          · exact ⟨_, rfl⟩
          · exact ⟨[], by simp⟩
  | logActivity u a d t =>
    unfold applyOp logActivity
    exact ⟨_, rfl⟩

/-- Unfolding one step of `run`. -/
theorem run_cons (op : Op) (ops : List Op) (db : DB) :
    run (op :: ops) db = run ops (applyOp op db) := rfl

/-- C9: the activity log is append-only — any sequence of storage calls
(including `deleteEvent`) leaves every existing ActivityLogEntry row
unchanged; the log only ever grows by rows appended via `logActivity`. -/
theorem activityLog_append_only (ops : List Op) (db : DB) :
    ∃ tail, (run ops db).activityLogs = db.activityLogs ++ tail := by
  induction ops generalizing db with
  | nil => exact ⟨[], by simp [run]⟩
  | cons op ops ih =>
    obtain ⟨t1, h1⟩ := applyOp_activityLogs op db
    obtain ⟨t2, h2⟩ := ih (applyOp op db)
    refine ⟨t1 ++ t2, ?_⟩
    rw [run_cons, h2, h1, List.append_assoc]

/-- The invariant of §3 of the spec: at most one registration row per
(event, user) pair. -/
def UniquePairs (db : DB) : Prop :=
  db.registrations.Pairwise
    (fun a b => ¬(a.userId = b.userId ∧ a.eventId = b.eventId))

/-- Rewriting registration rows without changing their user or event
references preserves pair uniqueness. -/
theorem pairwise_map_stamp (l : List Registration)
    (g : Registration → Registration)
    (hg : ∀ r, (g r).userId = r.userId ∧ (g r).eventId = r.eventId)
    (h : l.Pairwise
      (fun a b => ¬(a.userId = b.userId ∧ a.eventId = b.eventId))) :
    (l.map g).Pairwise
      (fun a b => ¬(a.userId = b.userId ∧ a.eventId = b.eventId)) := by
  rw [List.pairwise_map]
  refine h.imp ?_
  intro a b hab hcon
  apply hab
  constructor
  · rw [← (hg a).1, ← (hg b).1]
    exact hcon.1
  · rw [← (hg a).2, ← (hg b).2]
    exact hcon.2

/-- One storage call preserves the at-most-one-registration-per-pair
invariant. -/
theorem uniquePairs_applyOp (op : Op) (db : DB) (h : UniquePairs db) :
    UniquePairs (applyOp op db) := by
  cases op with
  | createUser name => exact h
  | updateUser id name =>
    unfold applyOp updateUser
    dsimp only
    split <;> exact h
  | createEvent input t =>
    unfold applyOp createEvent logActivity UniquePairs
    dsimp only
    rw [(createEventTopicsFold_frame db.nextEventId input.topics _).2.2.1]
    exact h
  | updateEvent id upd userId t =>
    unfold applyOp updateEvent
    dsimp only
    split <;> exact h
  | deleteEvent id =>
    unfold applyOp deleteEvent UniquePairs
    dsimp only
    exact List.Pairwise.sublist (List.filter_sublist _) h
  | createTopic eventId title => exact h
  | assignSpeakerToTopic speakerId topicId => exact h
  | registerForEvent u e t =>
    unfold applyOp
    dsimp only
    cases hfind : db.registrations.find?
        (fun r => r.userId == u && r.eventId == e) with
    | some r0 =>
      unfold registerForEvent
      rw [hfind]
      exact h
    | none =>
      cases hev : db.events.find? (fun x => x.id == e) with
      | none =>
        unfold registerForEvent
        rw [hfind, hev]
        exact h
      | some ev0 =>
        by_cases hge : (getEventRegistrations e db).length ≥ ev0.capacity
        · unfold registerForEvent
          rw [hfind, hev]
          dsimp only
          rw [if_pos hge]
          exact h
        · push_neg at hge
          rw [registerForEvent_success_eq db u e t ev0 hfind hev hge]
          unfold UniquePairs
          dsimp only
          rw [List.pairwise_append]
          refine ⟨h, List.pairwise_singleton _ _, ?_⟩
          intro a ha b hb
          simp only [List.mem_singleton] at hb
          subst hb
          rintro ⟨h1, h2⟩
          refine List.find?_eq_none.mp hfind a ha ?_
          simp only [freshRegistration] at h1 h2
          simp [h1, h2]
  | cancelRegistration u e t =>
    unfold applyOp UniquePairs
    dsimp only
    rw [cancelRegistration_snd_registrations]
    exact List.Pairwise.sublist (List.filter_sublist _) h
  | markAttendance rid t =>
    unfold applyOp UniquePairs
    dsimp only
    rw [markAttendance_snd_registrations]
    refine pairwise_map_stamp _ _ ?_ h
    intro r
    split <;> exact ⟨rfl, rfl⟩
  | generateCertificate rid sig t =>
    unfold applyOp
    dsimp only
    cases hfind : db.registrations.find? (fun r => r.id == rid) with
    | none =>
      unfold generateCertificate
      rw [hfind]
      exact h
    | some reg =>
      by_cases ha : reg.attended
      · by_cases hc : reg.certificateGenerated
        · unfold generateCertificate
          rw [hfind]
          simp only [ha, hc, Bool.not_true, Bool.false_eq_true, if_false,
            if_true]
          exact h
        · have hparts := generateCertificate_success_parts db rid sig t reg
            hfind ha (Bool.eq_false_iff.mpr hc)
          unfold UniquePairs
          rw [hparts.2.2]
          refine pairwise_map_stamp _ _ ?_ h
          intro r
          split <;> exact ⟨rfl, rfl⟩
      · unfold generateCertificate
        rw [hfind]
        simp only [Bool.eq_false_iff.mpr ha, Bool.not_false, if_true]
        exact h
  | logActivity u a d t => exact h

/-- C3: from any state with at most one registration row per (event, user)
pair, every state reachable by sequentially applying the storage
operations still has at most one registration row per pair. -/
theorem uniquePairs_run (ops : List Op) (db : DB) (h : UniquePairs db) :
    UniquePairs (run ops db) := by
  induction ops generalizing db with
  | nil => exact h
  | cons op ops ih =>
    rw [run_cons]
    exact ih _ (uniquePairs_applyOp op db h)

/-- Witness for `uniquePairs_run`: the five storage calls that build
`dbAttended` from the empty data base keep pairs unique. -/
theorem uniquePairs_run_witness :
    UniquePairs dbInit ∧
    UniquePairs (run [Op.createUser "alice", Op.createUser "bob",
      Op.createEvent { title := "E", capacity := 1, createdById := 1
                       topics := [] } 0,
      Op.registerForEvent 1 1 1, Op.markAttendance 1 2] dbInit) :=
  ⟨List.Pairwise.nil,
    uniquePairs_run [Op.createUser "alice", Op.createUser "bob",
      Op.createEvent { title := "E", capacity := 1, createdById := 1
                       topics := [] } 0,
      Op.registerForEvent 1 1 1, Op.markAttendance 1 2] dbInit
      List.Pairwise.nil⟩

/-- `cancelRegistration` does not move the events counter. -/
theorem cancelRegistration_snd_nextEventId (u e t : Nat) (db : DB) :
    (cancelRegistration u e t db).2.nextEventId = db.nextEventId := by
  unfold cancelRegistration
  dsimp only
  split
  · split <;> rfl
  · rfl

/-- `markAttendance` leaves the events table unchanged. -/
theorem markAttendance_snd_events (rid t : Nat) (db : DB) :
    (markAttendance rid t db).2.events = db.events := by
  unfold markAttendance
  dsimp only
  split
  · split
    · split <;> rfl
    · rfl
  · rfl

/-- `markAttendance` does not move the events counter. -/
theorem markAttendance_snd_nextEventId (rid t : Nat) (db : DB) :
    (markAttendance rid t db).2.nextEventId = db.nextEventId := by
  unfold markAttendance
  dsimp only
  split
  · split
    · split <;> rfl
    · rfl
  · rfl

/-- `generateCertificate` leaves the events table and counter unchanged,
and either leaves the registrations unchanged (error paths) or stamps rows
without touching their event references. -/
theorem generateCertificate_snd_parts (rid : Nat) (sig : Option String)
    (t : Nat) (db : DB) :
    (generateCertificate rid sig t db).2.events = db.events ∧
    (generateCertificate rid sig t db).2.nextEventId = db.nextEventId ∧
    ((generateCertificate rid sig t db).2.registrations =
        db.registrations ∨
      ∃ url, (generateCertificate rid sig t db).2.registrations =
        db.registrations.map (fun r => if r.id == rid then
          { r with certificateGenerated := true
                   certificateUrl := some url }
          else r)) := by
  unfold generateCertificate
  dsimp only
  split
  · exact ⟨rfl, rfl, Or.inl rfl⟩
  · split
    · exact ⟨rfl, rfl, Or.inl rfl⟩
    · split
      · exact ⟨rfl, rfl, Or.inl rfl⟩
      · rename_i reg heq ha hc
        refine ⟨?_, ?_,
          Or.inr ⟨"/certificates/" ++ toString reg.id, ?_⟩⟩ <;>
          (split <;> rfl)

/-- The tables `deleteEvent` ends with: events and registrations of the
deleted event are filtered out, the counter stays. -/
theorem deleteEvent_snd_parts (id : Nat) (db : DB) :
    (deleteEvent id db).2.events =
      db.events.filter (fun e => !(e.id == id)) ∧
    (deleteEvent id db).2.registrations =
      db.registrations.filter (fun r => !(r.eventId == id)) ∧
    (deleteEvent id db).2.nextEventId = db.nextEventId := by
  unfold deleteEvent
  exact ⟨rfl, rfl, rfl⟩

/-- The event row `createEvent` inserts. -/
def freshEvent (db : DB) (input : EventInput) : Event :=
  { id := db.nextEventId, title := input.title
    capacity := input.capacity, createdById := input.createdById }

/-- The tables `createEvent` ends with: the new event row is appended, the
counter moves, registrations stay. -/
theorem createEvent_snd_parts (input : EventInput) (t : Nat) (db : DB) :
    (createEvent input t db).2.events =
      db.events ++ [freshEvent db input] ∧
    (createEvent input t db).2.registrations = db.registrations ∧
    (createEvent input t db).2.nextEventId = db.nextEventId + 1 := by
  unfold createEvent logActivity
  dsimp only
  obtain ⟨f1, f2, f3, f4, f5, f6, f7, f8⟩ :=
    createEventTopicsFold_frame db.nextEventId input.topics
      { db with
          events := db.events ++ [freshEvent db input]
          nextEventId := db.nextEventId + 1 }
  exact ⟨f2, f3, f6⟩

/-- Whether a storage call is an `updateEvent` — the one operation that can
rewrite an event's capacity under existing registrations. -/
def Op.isUpdateEvent : Op → Bool
  | .updateEvent _ _ _ _ => true
  | _ => false

/-- Serial id discipline maintained by the storage layer: event ids are
distinct, and both event ids and the event references of registrations
stay below the events counter. -/
def WF (db : DB) : Prop :=
  (db.events.map Event.id).Nodup ∧
  (∀ ev ∈ db.events, ev.id < db.nextEventId) ∧
  (∀ r ∈ db.registrations, r.eventId < db.nextEventId)

/-- The capacity invariant of §8 of the spec: no event has more
registrations than its capacity. -/
def CapOk (db : DB) : Prop :=
  ∀ ev ∈ db.events, (getEventRegistrations ev.id db).length ≤ ev.capacity

instance decidableWF (db : DB) : Decidable (WF db) := by
  unfold WF
  infer_instance

instance decidableCapOk (db : DB) : Decidable (CapOk db) := by
  unfold CapOk
  infer_instance

/-- Rewriting rows without touching their event reference keeps every
per-event registration count. -/
theorem length_filter_eventId_map (l : List Registration) (x : Nat)
    (g : Registration → Registration)
    (hg : ∀ r, (g r).eventId = r.eventId) :
    ((l.map g).filter (fun r => r.eventId == x)).length =
      (l.filter (fun r => r.eventId == x)).length := by
  rw [List.filter_map, List.length_map]
  congr 1
  apply List.filter_congr
  intro a ha
  simp [Function.comp, hg a]

/-- Deleting rows can only lower a per-event registration count. -/
theorem length_filter_eventId_filter_le (l : List Registration) (x : Nat)
    (q : Registration → Bool) :
    ((l.filter q).filter (fun r => r.eventId == x)).length ≤
      (l.filter (fun r => r.eventId == x)).length :=
  List.Sublist.length_le (List.Sublist.filter _ (List.filter_sublist l))

/-- Apart from `updateEvent`, every storage call preserves both the serial
id discipline and the capacity invariant. -/
theorem wf_capOk_applyOp (op : Op) (db : DB)
    (hop : op.isUpdateEvent = false) (hwf : WF db) (hcap : CapOk db) :
    WF (applyOp op db) ∧ CapOk (applyOp op db) := by
  obtain ⟨hnd, hbound, hrbound⟩ := hwf
  cases op with
  | createUser name => exact ⟨⟨hnd, hbound, hrbound⟩, hcap⟩
  | updateUser id name =>
    unfold applyOp updateUser
    dsimp only
    split <;> exact ⟨⟨hnd, hbound, hrbound⟩, hcap⟩
  | createEvent input t =>
    unfold applyOp
    dsimp only
    obtain ⟨he, hr, hn⟩ := createEvent_snd_parts input t db
    constructor
    · refine ⟨?_, ?_, ?_⟩
      · rw [he, List.map_append, List.nodup_append]
        refine ⟨hnd, List.nodup_singleton _, ?_⟩
        intro a ha hb
        obtain ⟨ev, hev, hevid⟩ := List.mem_map.mp ha
        simp only [List.map_cons, List.map_nil, List.mem_cons,
          List.not_mem_nil, or_false] at hb
        have h1 := hbound ev hev
        rw [hevid] at h1
        rw [hb] at h1
        exact absurd h1 (lt_irrefl _)
      · intro ev hev
        rw [he] at hev
        rw [hn]
        rcases List.mem_append.mp hev with hmem | hmem
        · have := hbound ev hmem
          omega
        · simp only [List.mem_singleton] at hmem
          subst hmem
          dsimp only [freshEvent]
          omega
      · intro r hr2
        rw [hr] at hr2
        rw [hn]
        have := hrbound r hr2
        omega
    · intro ev hev
      rw [he] at hev
      unfold getEventRegistrations
      rw [hr]
      rcases List.mem_append.mp hev with hmem | hmem
      · exact hcap ev hmem
      · simp only [List.mem_singleton] at hmem
        subst hmem
        dsimp only [freshEvent]
        have hz : db.registrations.filter
            (fun r => r.eventId == db.nextEventId) = [] := by
          rw [List.filter_eq_nil_iff]
          intro a ha
          have := hrbound a ha
          simp only [beq_iff_eq]
          omega
        rw [hz]
        exact Nat.zero_le _
  | updateEvent id upd userId t =>
    exfalso
    simp [Op.isUpdateEvent] at hop
  | deleteEvent id =>
    unfold applyOp
    dsimp only
    obtain ⟨he, hr, hn⟩ := deleteEvent_snd_parts id db
    constructor
    · refine ⟨?_, ?_, ?_⟩
      · rw [he]
        exact List.Pairwise.sublist
          (List.Sublist.map _ (List.filter_sublist _)) hnd
      · intro ev hev
        rw [he] at hev
        rw [hn]
        exact hbound ev (List.mem_of_mem_filter hev)
      · intro r hr2
        rw [hr] at hr2
        rw [hn]
        exact hrbound r (List.mem_of_mem_filter hr2)
    · intro ev hev
      rw [he] at hev
      unfold getEventRegistrations
      rw [hr]
      exact le_trans (length_filter_eventId_filter_le _ _ _)
        (hcap ev (List.mem_of_mem_filter hev))
  | createTopic eventId title => exact ⟨⟨hnd, hbound, hrbound⟩, hcap⟩
  | assignSpeakerToTopic speakerId topicId =>
    exact ⟨⟨hnd, hbound, hrbound⟩, hcap⟩
  | logActivity u a d t => exact ⟨⟨hnd, hbound, hrbound⟩, hcap⟩
  | registerForEvent u e t =>
    unfold applyOp
    dsimp only
    cases hfind : db.registrations.find?
        (fun r => r.userId == u && r.eventId == e) with
    | some r0 =>
      unfold registerForEvent
      rw [hfind]
      exact ⟨⟨hnd, hbound, hrbound⟩, hcap⟩
    | none =>
      cases hev : db.events.find? (fun x => x.id == e) with
      | none =>
        unfold registerForEvent
        rw [hfind, hev]
        exact ⟨⟨hnd, hbound, hrbound⟩, hcap⟩
      | some ev0 =>
        by_cases hge : (getEventRegistrations e db).length ≥ ev0.capacity
        · unfold registerForEvent
          rw [hfind, hev]
          dsimp only
          rw [if_pos hge]
          exact ⟨⟨hnd, hbound, hrbound⟩, hcap⟩
        · push_neg at hge
          rw [registerForEvent_success_eq db u e t ev0 hfind hev hge]
          have hevmem : ev0 ∈ db.events := List.mem_of_find?_eq_some hev
          have hevid : ev0.id = e := by
            simpa using List.find?_some hev
          constructor
          · refine ⟨hnd, hbound, ?_⟩
            intro r hr2
            dsimp only at hr2 ⊢
            rcases List.mem_append.mp hr2 with hmem | hmem
            · exact hrbound r hmem
            · simp only [List.mem_singleton] at hmem
              subst hmem
              dsimp only [freshRegistration]
              rw [← hevid]
              exact hbound ev0 hevmem
          · intro ev1 hev1
            dsimp only at hev1 ⊢
            unfold getEventRegistrations
            dsimp only
            rw [List.filter_append]
            by_cases hide : ev1.id = e
            · have hsame : ev1 = ev0 :=
                List.inj_on_of_nodup_map hnd hev1 hevmem
                  (by rw [hide, hevid])
              subst hsame
              rw [List.length_append]
              have hfr : (([freshRegistration db u e]).filter
                  (fun r => r.eventId == ev1.id)).length = 1 := by
                simp [freshRegistration, hide]
              rw [hfr]
              have hcount : db.registrations.filter
                  (fun r => r.eventId == ev1.id) =
                  db.registrations.filter (fun r => r.eventId == e) := by
                rw [hide]
              rw [hcount]
              unfold getEventRegistrations at hge
              omega
            · have hfr : ([freshRegistration db u e]).filter
                  (fun r => r.eventId == ev1.id) = [] := by
                simp only [freshRegistration, List.filter_eq_nil_iff,
                  List.mem_singleton, beq_iff_eq]
                intro a ha
                subst ha
                dsimp only
                exact fun hcon => hide hcon.symm
              rw [hfr]
              simp only [List.append_nil]
              exact hcap ev1 hev1
  | cancelRegistration u e t =>
    unfold applyOp
    dsimp only
    constructor
    · refine ⟨?_, ?_, ?_⟩
      · rw [cancelRegistration_snd_events]
        exact hnd
      · intro ev hev
        rw [cancelRegistration_snd_events] at hev
        rw [cancelRegistration_snd_nextEventId]
        exact hbound ev hev
      · intro r hr2
        rw [cancelRegistration_snd_registrations] at hr2
        rw [cancelRegistration_snd_nextEventId]
        exact hrbound r (List.mem_of_mem_filter hr2)
    · intro ev hev
      rw [cancelRegistration_snd_events] at hev
      unfold getEventRegistrations
      rw [cancelRegistration_snd_registrations]
      exact le_trans (length_filter_eventId_filter_le _ _ _) (hcap ev hev)
  | markAttendance rid t =>
    unfold applyOp
    dsimp only
    have hg : ∀ r : Registration,
        ((if r.id == rid then
          { r with attended := true, attendanceTime := some t }
          else r) : Registration).eventId = r.eventId := by
      intro r
      split <;> rfl
    constructor
    · refine ⟨?_, ?_, ?_⟩
      · rw [markAttendance_snd_events]
        exact hnd
      · intro ev hev
        rw [markAttendance_snd_events] at hev
        rw [markAttendance_snd_nextEventId]
        exact hbound ev hev
      · intro r hr2
        rw [markAttendance_snd_registrations] at hr2
        rw [markAttendance_snd_nextEventId]
        obtain ⟨a, ha, hax⟩ := List.mem_map.mp hr2
        rw [← hax, hg a]
        exact hrbound a ha
    · intro ev hev
      rw [markAttendance_snd_events] at hev
      unfold getEventRegistrations
      rw [markAttendance_snd_registrations]
      rw [length_filter_eventId_map _ _ _ hg]
      exact hcap ev hev
  | generateCertificate rid sig t =>
    unfold applyOp
    dsimp only
    obtain ⟨he, hn, hr⟩ := generateCertificate_snd_parts rid sig t db
    have hwf2 : WF (generateCertificate rid sig t db).2 ∧
        CapOk (generateCertificate rid sig t db).2 := by
      rcases hr with hr | ⟨url, hr⟩
      · constructor
        · refine ⟨?_, ?_, ?_⟩
          · rw [he]
            exact hnd
          · intro ev hev
            rw [he] at hev
            rw [hn]
            exact hbound ev hev
          · intro r hr2
            rw [hr] at hr2
            rw [hn]
            exact hrbound r hr2
        · intro ev hev
          rw [he] at hev
          unfold getEventRegistrations
          rw [hr]
          exact hcap ev hev
      · have hg : ∀ r : Registration,
            ((if r.id == rid then
              { r with certificateGenerated := true
                       certificateUrl := some url }
              else r) : Registration).eventId = r.eventId := by
          intro r
          split <;> rfl
        constructor
        · refine ⟨?_, ?_, ?_⟩
          · rw [he]
            exact hnd
          · intro ev hev
            rw [he] at hev
            rw [hn]
            exact hbound ev hev
          · intro r hr2
            rw [hr] at hr2
            rw [hn]
            obtain ⟨a, ha, hax⟩ := List.mem_map.mp hr2
            rw [← hax, hg a]
            exact hrbound a ha
        · intro ev hev
          rw [he] at hev
          unfold getEventRegistrations
          rw [hr]
          rw [length_filter_eventId_map _ _ _ hg]
          exact hcap ev hev
    exact hwf2

/-- Running any updateEvent-free sequence of storage calls preserves both
the serial id discipline and the capacity invariant. -/
theorem wf_capOk_run (ops : List Op) (db : DB)
    (hops : ∀ op ∈ ops, op.isUpdateEvent = false)
    (hwf : WF db) (hcap : CapOk db) :
    WF (run ops db) ∧ CapOk (run ops db) := by
  induction ops generalizing db with
  | nil => exact ⟨hwf, hcap⟩
  | cons op ops ih =>
    rw [run_cons]
    have h1 := wf_capOk_applyOp op db (hops op (List.mem_cons_self op ops))
      hwf hcap
    exact ih (applyOp op db)
      (fun o ho => hops o (List.mem_cons_of_mem op ho)) h1.1 h1.2

/-- C4 (amended): from a well-formed state satisfying it, the capacity
invariant registrationCount ≤ capacity is preserved by every sequential
application of the storage operations other than `updateEvent`; and the
capacity-1 scenario holds: register(A) succeeds, register(B) fails with
capacity exceeded, cancel(A) succeeds, then register(B) succeeds. -/
theorem capacity_invariant_and_scenario :
    (∀ (ops : List Op) (db : DB),
      (∀ op ∈ ops, op.isUpdateEvent = false) → WF db → CapOk db →
      CapOk (run ops db)) ∧
    ((∃ reg, (registerForEvent 1 1 1 dbBase).1 = .ok reg) ∧
      (registerForEvent 2 1 2 dbRegistered).1 =
        .error .capacityExceeded ∧
      (cancelRegistration 1 1 3
        (registerForEvent 2 1 2 dbRegistered).2).1 = true ∧
      (∃ reg, (registerForEvent 2 1 4
        (cancelRegistration 1 1 3
          (registerForEvent 2 1 2 dbRegistered).2).2).1 = .ok reg)) := by
  constructor
  · intro ops db hops hwf hcap
    exact (wf_capOk_run ops db hops hwf hcap).2
  · exact ⟨⟨_, rfl⟩, rfl, rfl, ⟨_, rfl⟩⟩

/-- C4 counterexample: `updateEvent` is a storage operation that breaks the
capacity invariant in a purely sequential run — at the reachable state
`dbRegistered` (event 1 with capacity 1 and one registration) the
invariant holds, yet a single `updateEvent` call lowering the capacity to
0 yields a state violating it. -/
theorem capacity_broken_by_updateEvent :
    CapOk dbRegistered ∧ WF dbRegistered ∧
    ¬ CapOk (applyOp
      (Op.updateEvent 1 { title := none, capacity := some 0 } 1 5)
      dbRegistered) :=
  ⟨by decide, by decide, by decide⟩

/-- The four registration calls of the capacity-1 scenario. -/
def capacityDemoOps : List Op :=
  [Op.registerForEvent 1 1 1, Op.registerForEvent 2 1 2,
   Op.cancelRegistration 1 1 3, Op.registerForEvent 2 1 4]

/-- Witness for `capacity_invariant_and_scenario`: the scenario calls keep
the invariant when run from `dbBase`. -/
theorem capacity_invariant_witness :
    ((∀ op ∈ capacityDemoOps, op.isUpdateEvent = false) ∧
      WF dbBase ∧ CapOk dbBase) ∧
    CapOk (run capacityDemoOps dbBase) :=
  ⟨⟨by decide, by decide, by decide⟩,
    capacity_invariant_and_scenario.1 capacityDemoOps dbBase
      (by decide) (by decide) (by decide)⟩

end EventHub
